import Mathlib

/-!
Shallow embedding of the parallel_call predictive dialer backend
(src/backend/app): the Lead and Campaign domain models, the operator
manager, and the dialer orchestrator, with theorems checking the
natural-language specification against this embedding.

Modelling conventions: Python float arithmetic on ratios and rates is
modelled by exact rational arithmetic (ℚ); wall-clock instants
(datetime.now) are modelled by an explicit `now : ℕ` parameter threaded
into each mutator; Python exceptions are modelled by `Except` results
carrying the structured data the exception classes store.
-/

/-- Lead status in the calling workflow (models LeadStatus in
src/backend/app/models/lead.py). -/
inductive LeadStatus where
  | pending
  | calling
  | connected
  | completed
  | failed
  | dnc
deriving DecidableEq, Repr

/-- Models InvalidStatusTransitionError of lead.py: the exception stores the
current status and the attempted action. -/
structure InvalidStatusTransitionError where
  current_status : LeadStatus
  attempted_action : String
deriving DecidableEq, Repr

/-- Models one record appended by Lead._record_call_attempt. -/
structure CallRecord where
  timestamp : ℕ
  attempt_number : ℕ
  outcome : Option String
  reason : Option String
deriving DecidableEq, Repr

/-- Models the Lead dataclass of lead.py (fields relevant to the state
machine; defaults mirror the dataclass defaults). -/
structure Lead where
  phone_number : String
  id : String
  name : Option String := none
  status : LeadStatus := .pending
  outcome : Option String := none
  fail_reason : Option String := none
  retry_count : ℕ := 0
  max_retries : ℕ := 3
  created_at : ℕ := 0
  updated_at : ℕ := 0
  last_called_at : Option ℕ := none
  call_history : List CallRecord := []
  campaign_id : Option String := none
deriving DecidableEq, Repr

/-- Models Lead._update_timestamp. -/
def Lead.updateTimestamp (now : ℕ) (l : Lead) : Lead :=
  { l with updated_at := now }

/-- Models Lead._record_call_attempt: appends a record; the outcome and
reason keys are only set when the strings are truthy (non-empty). -/
def Lead.record_call_attempt (now : ℕ) (l : Lead) (outcome reason : Option String) : Lead :=
  { l with call_history := l.call_history ++
      [{ timestamp := now
         attempt_number := l.call_history.length + 1
         outcome := match outcome with
           | some s => if s.isEmpty then none else some s
           | none => none
         reason := match reason with
           | some s => if s.isEmpty then none else some s
           | none => none }] }

/-- Models Lead.start_calling: PENDING → CALLING, sets last_called_at. -/
def Lead.start_calling (now : ℕ) (l : Lead) : Except InvalidStatusTransitionError Lead :=
  if l.status ∈ [LeadStatus.pending] then
    .ok { l with status := .calling, last_called_at := some now, updated_at := now }
  else
    .error ⟨l.status, "start_calling"⟩

/-- Models Lead.connect: CALLING → CONNECTED. -/
def Lead.connect (now : ℕ) (l : Lead) : Except InvalidStatusTransitionError Lead :=
  if l.status ∈ [LeadStatus.calling] then
    .ok { l with status := .connected, updated_at := now }
  else
    .error ⟨l.status, "connect"⟩

/-- Models Lead.complete: CONNECTED → COMPLETED, records history, then
updates the timestamp. -/
def Lead.complete (now : ℕ) (outcome : String) (l : Lead) :
    Except InvalidStatusTransitionError Lead :=
  if l.status ∈ [LeadStatus.connected] then
    .ok ((Lead.record_call_attempt now
            { l with status := .completed, outcome := some outcome }
            (some outcome) none).updateTimestamp now)
  else
    .error ⟨l.status, "complete"⟩

/-- Models Lead.fail: CALLING → FAILED with a reason, records history, then
updates the timestamp. -/
def Lead.fail (now : ℕ) (reason : String) (l : Lead) :
    Except InvalidStatusTransitionError Lead :=
  if l.status ∈ [LeadStatus.calling] then
    .ok ((Lead.record_call_attempt now
            { l with status := .failed, fail_reason := some reason }
            none (some reason)).updateTimestamp now)
  else
    .error ⟨l.status, "fail"⟩

/-- Models Lead.retry: only from FAILED; below the retry limit it resets to
PENDING, increments retry_count and clears fail_reason; at the limit it
raises InvalidStatusTransitionError with the action string used by the
source. -/
def Lead.retry (now : ℕ) (l : Lead) : Except InvalidStatusTransitionError Lead :=
  if l.status ∈ [LeadStatus.failed] then
    if l.retry_count ≥ l.max_retries then
      .error ⟨l.status, "retry (max retries reached)"⟩
    else
      .ok { l with status := .pending, retry_count := l.retry_count + 1,
                   fail_reason := none, updated_at := now }
  else
    .error ⟨l.status, "retry"⟩

/-- Models Lead.mark_dnc: a no-op on a DNC lead, otherwise sets status DNC. -/
def Lead.mark_dnc (now : ℕ) (l : Lead) : Lead :=
  if l.status = .dnc then l
  else { l with status := .dnc, updated_at := now }

/-- The five guarded Lead mutators as one action type (complete and fail
carry their string payload). -/
inductive LeadAction where
  | startCalling
  | connect
  | complete (outcome : String)
  | fail (reason : String)
  | retry
deriving DecidableEq, Repr

/-- The allowed predecessor set each guarded mutator checks via
Lead._can_transition_from. -/
def LeadAction.allowedFrom : LeadAction → List LeadStatus
  | .startCalling => [.pending]
  | .connect => [.calling]
  | .complete _ => [.connected]
  | .fail _ => [.calling]
  | .retry => [.failed]

/-- The action string each mutator passes to _can_transition_from. -/
def LeadAction.actionName : LeadAction → String
  | .startCalling => "start_calling"
  | .connect => "connect"
  | .complete _ => "complete"
  | .fail _ => "fail"
  | .retry => "retry"

/-- Dispatches a LeadAction to the corresponding Lead mutator. -/
def LeadAction.run (a : LeadAction) (now : ℕ) (l : Lead) :
    Except InvalidStatusTransitionError Lead :=
  match a with
  | .startCalling => Lead.start_calling now l
  | .connect => Lead.connect now l
  | .complete outcome => Lead.complete now outcome l
  | .fail reason => Lead.fail now reason l
  | .retry => Lead.retry now l

/-- Campaign status (models CampaignStatus in
src/backend/app/models/campaign.py). -/
inductive CampaignStatus where
  | draft
  | running
  | paused
  | stopped
  | completed
deriving DecidableEq, Repr

/-- Models InvalidCampaignStateError of campaign.py. -/
structure InvalidCampaignStateError where
  current_status : CampaignStatus
  attempted_action : String
  reason : String := ""
deriving DecidableEq, Repr

/-- Errors raised by Campaign operations: the structured campaign-state
exception, plus the two ValueError sites modelled by their semantic
content (duplicate phone in add_lead, non-positive ratio in
update_dial_ratio). -/
inductive CampaignError where
  | invalidState (e : InvalidCampaignStateError)
  | duplicatePhone (phone : String)
  | dialRatioNotPositive
deriving DecidableEq, Repr

/-- Models CampaignStats of campaign.py (all counters natural numbers). -/
structure CampaignStats where
  total_leads : ℕ := 0
  pending_leads : ℕ := 0
  calling_leads : ℕ := 0
  connected_leads : ℕ := 0
  completed_leads : ℕ := 0
  failed_leads : ℕ := 0
  dnc_leads : ℕ := 0
  abandoned_leads : ℕ := 0
deriving DecidableEq, Repr

/-- Models CampaignStats.abandon_rate: abandoned / (connected + abandoned),
or 0 when the denominator is 0. -/
def CampaignStats.abandon_rate (s : CampaignStats) : ℚ :=
  if s.connected_leads + s.abandoned_leads = 0 then 0
  else (s.abandoned_leads : ℚ) / ((s.connected_leads : ℚ) + (s.abandoned_leads : ℚ))

/-- Models the Campaign dataclass of campaign.py. The Python set
_phone_numbers is modelled as a Finset of strings. -/
structure Campaign where
  name : String
  id : String
  description : String := ""
  status : CampaignStatus := .draft
  dial_ratio : ℚ := 3
  caller_id : Option String := none
  leads : List Lead := []
  phone_numbers : Finset String := ∅
  created_at : ℕ := 0
  updated_at : ℕ := 0
  started_at : Option ℕ := none
  completed_at : Option ℕ := none
deriving DecidableEq

/-- Models Campaign.__post_init__: the name must be non-blank (not empty
and not all whitespace, modelling the name.strip() test over the character
list) and the dial ratio positive, otherwise construction raises
ValueError. -/
def Campaign.postInitOk (name : String) (dial_ratio : ℚ) : Bool :=
  !(name.toList.all Char.isWhitespace) && decide (0 < dial_ratio)

/-- Models the pydantic CampaignCreate schema of
src/backend/app/schemas/campaign.py: dial_ratio carries Field(gt=0, le=10). -/
def campaignCreateAccepts (dial_ratio : ℚ) : Bool :=
  decide (0 < dial_ratio) && decide (dial_ratio ≤ 10)

/-- Models Campaign.add_lead: rejected in STOPPED or COMPLETED, rejected on
a duplicate phone, otherwise appends the lead (with campaign_id set) and
adds its phone to the duplicate-check set. -/
def Campaign.add_lead (now : ℕ) (c : Campaign) (l : Lead) : Except CampaignError Campaign :=
  if c.status ∈ [CampaignStatus.stopped, CampaignStatus.completed] then
    .error (.invalidState ⟨c.status, "add lead", ""⟩)
  else if l.phone_number ∈ c.phone_numbers then
    .error (.duplicatePhone l.phone_number)
  else
    .ok { c with leads := c.leads ++ [{ l with campaign_id := some c.id }],
                 phone_numbers := insert l.phone_number c.phone_numbers,
                 updated_at := now }

/-- Helper for Campaign.remove_lead: scans the lead list for the first lead
with the given id; a match that is not PENDING raises, a PENDING match is
removed and returned, no match returns none and leaves the list as it was. -/
def removeLeadAux (status : CampaignStatus) (lead_id : String) :
    List Lead → Except CampaignError (Option Lead × List Lead)
  | [] => .ok (none, [])
  | l :: ls =>
    if l.id = lead_id then
      if l.status ≠ .pending then
        .error (.invalidState ⟨status, "remove lead", "can only remove pending leads"⟩)
      else
        .ok (some l, ls)
    else
      match removeLeadAux status lead_id ls with
      | .error e => .error e
      | .ok (r, ls2) => .ok (r, l :: ls2)

/-- Models Campaign.remove_lead: removes the first PENDING lead with the
given id, discarding its phone from the duplicate-check set; returns none
(and changes nothing) when no lead has the id. -/
def Campaign.remove_lead (now : ℕ) (c : Campaign) (lead_id : String) :
    Except CampaignError (Option Lead × Campaign) :=
  match removeLeadAux c.status lead_id c.leads with
  | .error e => .error e
  | .ok (none, _) => .ok (none, c)
  | .ok (some l, ls2) =>
      .ok (some l, { c with leads := ls2,
                            phone_numbers := c.phone_numbers.erase l.phone_number,
                            updated_at := now })

/-- Models Campaign.get_callable_leads collection loop: append each PENDING
lead and stop as soon as the collected count reaches the requested count. -/
def callableAux (count : ℤ) : ℤ → List Lead → List Lead
  | _, [] => []
  | len, l :: ls =>
    if l.status = .pending then
      if count ≤ len + 1 then [l] else l :: callableAux count (len + 1) ls
    else
      callableAux count len ls

/-- Models Campaign.get_callable_leads: empty unless RUNNING, otherwise the
collection loop over the lead list. -/
def Campaign.get_callable_leads (c : Campaign) (count : ℤ) : List Lead :=
  if c.status ≠ .running then [] else callableAux count 0 c.leads

/-- Models Campaign.check_completion: only a RUNNING campaign with no lead
in PENDING, CALLING or CONNECTED transitions to COMPLETED; returns whether
the status changed, paired with the campaign. -/
def Campaign.check_completion (now : ℕ) (c : Campaign) : Bool × Campaign :=
  if c.status ≠ .running then (false, c)
  else if c.leads.any (fun l =>
      decide (l.status ∈ [LeadStatus.pending, LeadStatus.calling, LeadStatus.connected])) then
    (false, c)
  else
    (true, { c with status := .completed, completed_at := some now, updated_at := now })

/-- Models Campaign.update_dial_ratio: rejects a non-positive ratio,
otherwise stores it. -/
def Campaign.update_dial_ratio (now : ℕ) (c : Campaign) (new_ratio : ℚ) :
    Except CampaignError Campaign :=
  if new_ratio ≤ 0 then .error .dialRatioNotPositive
  else .ok { c with dial_ratio := new_ratio, updated_at := now }

/-- Models Campaign.get_stats: counts leads by status; abandoned_leads is
never incremented by this scan and stays 0. -/
def Campaign.get_stats (c : Campaign) : CampaignStats :=
  { total_leads := c.leads.length
    pending_leads := c.leads.countP (fun l => decide (l.status = .pending))
    calling_leads := c.leads.countP (fun l => decide (l.status = .calling))
    connected_leads := c.leads.countP (fun l => decide (l.status = .connected))
    completed_leads := c.leads.countP (fun l => decide (l.status = .completed))
    failed_leads := c.leads.countP (fun l => decide (l.status = .failed))
    dnc_leads := c.leads.countP (fun l => decide (l.status = .dnc))
    abandoned_leads := 0 }

/-- Models the DialerOrchestrator constructor configuration of
src/backend/app/services/dialer_orchestrator.py (defaults mirror the
source defaults). -/
structure DialerConfig where
  base_dial_ratio : ℚ := 3
  min_dial_ratio : ℚ := 1
  max_dial_ratio : ℚ := 5
  target_abandon_rate : ℚ := 3 / 100
deriving DecidableEq

/-- Models DialerOrchestrator.calculate_dial_ratio: below a sample of 10
answered calls it returns the base ratio; otherwise a proportional
adjustment of the base ratio clamped between the configured minimum and
maximum. -/
def calculate_dial_ratio (cfg : DialerConfig) (stats : CampaignStats) : ℚ :=
  let current_abandon_rate := stats.abandon_rate
  let total_calls := stats.connected_leads + stats.abandoned_leads
  if total_calls < 10 then cfg.base_dial_ratio
  else
    let adjustment : ℚ :=
      if current_abandon_rate > 0 then
        1 + (cfg.target_abandon_rate - current_abandon_rate) * 10
      else
        11 / 10
    let new_ratio := cfg.base_dial_ratio * adjustment
    max cfg.min_dial_ratio (min cfg.max_dial_ratio new_ratio)

/-- Models the Python int() conversion on a float: truncation toward zero. -/
def ratTrunc (q : ℚ) : ℤ :=
  if q < 0 then -⌊-q⌋ else ⌊q⌋

/-- Models DialerOrchestrator.calculate_calls_to_make: 0 when no operator
is available, otherwise the truncated product of operators and ratio minus
the pending calls, never negative. -/
def calculate_calls_to_make (available_operators : ℤ) (dial_ratio : ℚ)
    (pending_calls : ℤ) : ℤ :=
  if available_operators ≤ 0 then 0
  else
    let target_calls := ratTrunc ((available_operators : ℚ) * dial_ratio)
    let calls_needed := target_calls - pending_calls
    max 0 calls_needed

/-- Models DialerOrchestrator.get_leads_to_dial: nothing for a non-RUNNING
campaign; otherwise computes the ratio from fresh stats, caps it by the
campaign ratio, derives the launch count and drains that many callable
leads. -/
def get_leads_to_dial (cfg : DialerConfig) (campaign : Campaign)
    (available_operators : ℤ) (pending_calls : ℤ) : List Lead :=
  if campaign.status ≠ .running then []
  else
    let stats := campaign.get_stats
    let dial_ratio := calculate_dial_ratio cfg stats
    let effective_ratio := min dial_ratio campaign.dial_ratio
    let calls_to_make := calculate_calls_to_make available_operators effective_ratio pending_calls
    if calls_to_make ≤ 0 then []
    else campaign.get_callable_leads calls_to_make

/-- Models DialerOrchestrator.should_pause_dialing: true when the abandon
rate exceeds twice the target. -/
def should_pause_dialing (cfg : DialerConfig) (stats : CampaignStats) : Bool :=
  decide (stats.abandon_rate > cfg.target_abandon_rate * 2)

/-- Operator availability status (models OperatorStatus in
src/backend/app/services/operator_manager.py). -/
inductive OperatorStatus where
  | offline
  | available
  | on_call
  | on_break
  | wrap_up
deriving DecidableEq, Repr

/-- Models the OperatorSession dataclass of operator_manager.py (defaults
mirror the dataclass defaults). -/
structure OperatorSession where
  id : String
  name : String
  status : OperatorStatus := .offline
  current_call_sid : Option String := none
  current_lead_id : Option String := none
  idle_since : Option ℕ := none
  call_started_at : Option ℕ := none
  session_started_at : Option ℕ := none
  calls_handled : ℕ := 0
  total_talk_time_seconds : ℕ := 0
deriving DecidableEq, Repr

/-- Models OperatorSession.idle_duration_seconds at the instant now: 0 when
idle_since is unset, otherwise the elapsed time. -/
def OperatorSession.idle_duration_seconds (now : ℕ) (s : OperatorSession) : ℚ :=
  match s.idle_since with
  | none => 0
  | some t => (now : ℚ) - (t : ℚ)

/-- Models OperatorSession.go_online. -/
def OperatorSession.go_online (now : ℕ) (s : OperatorSession) : OperatorSession :=
  { s with status := .available, idle_since := some now, session_started_at := some now }

/-- Models OperatorSession.go_offline. -/
def OperatorSession.go_offline (s : OperatorSession) : OperatorSession :=
  { s with status := .offline, idle_since := none,
           current_call_sid := none, current_lead_id := none }

/-- Models OperatorSession.start_call. -/
def OperatorSession.start_call (now : ℕ) (call_sid lead_id : String)
    (s : OperatorSession) : OperatorSession :=
  { s with status := .on_call, current_call_sid := some call_sid,
           current_lead_id := some lead_id, call_started_at := some now,
           idle_since := none }

/-- Models OperatorSession.end_call: accumulates talk time and the handled
count when a call was started, then returns to AVAILABLE. -/
def OperatorSession.end_call (now : ℕ) (s : OperatorSession) : OperatorSession :=
  let s2 :=
    match s.call_started_at with
    | some t =>
      { s with total_talk_time_seconds := s.total_talk_time_seconds + (now - t),
               calls_handled := s.calls_handled + 1 }
    | none => s
  { s2 with status := .available, current_call_sid := none, current_lead_id := none,
            call_started_at := none, idle_since := some now }

/-- Models OperatorSession.go_on_break. -/
def OperatorSession.go_on_break (s : OperatorSession) : OperatorSession :=
  { s with status := .on_break, idle_since := none }

/-- Models OperatorSession.return_from_break. -/
def OperatorSession.return_from_break (now : ℕ) (s : OperatorSession) : OperatorSession :=
  { s with status := .available, idle_since := some now }

/-- Models OperatorSession.start_wrap_up. -/
def OperatorSession.start_wrap_up (s : OperatorSession) : OperatorSession :=
  { s with status := .wrap_up, idle_since := none }

/-- Models OperatorSession.end_wrap_up. -/
def OperatorSession.end_wrap_up (now : ℕ) (s : OperatorSession) : OperatorSession :=
  { s with status := .available, idle_since := some now }

/-- The eight OperatorSession mutators as one action type. -/
inductive SessionAction where
  | goOnline
  | goOffline
  | startCall (call_sid lead_id : String)
  | endCall
  | goOnBreak
  | returnFromBreak
  | startWrapUp
  | endWrapUp
deriving DecidableEq, Repr

/-- Dispatches a SessionAction to the corresponding OperatorSession
mutator. -/
def SessionAction.run (a : SessionAction) (now : ℕ) (s : OperatorSession) : OperatorSession :=
  match a with
  | .goOnline => s.go_online now
  | .goOffline => s.go_offline
  | .startCall cid lid => s.start_call now cid lid
  | .endCall => s.end_call now
  | .goOnBreak => s.go_on_break
  | .returnFromBreak => s.return_from_break now
  | .startWrapUp => s.start_wrap_up
  | .endWrapUp => s.end_wrap_up now

/-- Invariant of the spec: idle_since is non-null exactly when the state is
AVAILABLE. -/
def sessionInvariant (s : OperatorSession) : Prop :=
  s.idle_since ≠ none ↔ s.status = .available

/-- Stable insertion of x into a list sorted descending by key: x skips
strictly greater keys and lands before the first key less than or equal to
its own, so elements with equal keys keep their original order. -/
def insertDesc (key : OperatorSession → ℚ) (x : OperatorSession) :
    List OperatorSession → List OperatorSession
  | [] => [x]
  | y :: ys => if key y > key x then y :: insertDesc key x ys else x :: y :: ys

/-- Stable descending sort by key, modelling the Python stable list.sort
with reverse=True used by OperatorManager.select_operator. -/
def pySortDesc (key : OperatorSession → ℚ) : List OperatorSession → List OperatorSession
  | [] => []
  | x :: xs => insertDesc key x (pySortDesc key xs)

/-- Models OperatorManager.select_operator over the registry in insertion
order: filter the AVAILABLE operators, stably sort them by idle duration
descending, return the head (none when no operator is available). -/
def select_operator (now : ℕ) (ops : List OperatorSession) : Option OperatorSession :=
  let available := ops.filter (fun o => decide (o.status = .available))
  match pySortDesc (OperatorSession.idle_duration_seconds now) available with
  | [] => none
  | x :: _ => some x

/-- Left-to-right scan keeping the current best and replacing it only on a
strictly greater key: returns the first element attaining the maximum key. -/
def firstMaxAux (key : OperatorSession → ℚ) (best : OperatorSession) :
    List OperatorSession → OperatorSession
  | [] => best
  | y :: ys => firstMaxAux key (if key y > key best then y else best) ys

/-- Selection policy in the words of the amended spec sentence: among the
AVAILABLE operators in registry (insertion) order, the first one attaining
the maximal idle duration; none when no operator is available. -/
def select_operator_spec (now : ℕ) (ops : List OperatorSession) : Option OperatorSession :=
  match ops.filter (fun o => decide (o.status = .available)) with
  | [] => none
  | x :: xs => some (firstMaxAux (OperatorSession.idle_duration_seconds now) x xs)

/-- Sample lead in CONNECTED status used by concrete witnesses. -/
def sampleConnectedLead : Lead :=
  { phone_number := "+818011112222", id := "LC", status := .connected }

/-- Sample lead in COMPLETED status used by concrete witnesses. -/
def sampleCompletedLead : Lead :=
  { phone_number := "+818011113333", id := "LD", status := .completed }

/-- Sample FAILED lead below its retry limit. -/
def sampleFailedLead : Lead :=
  { phone_number := "+818011114444", id := "LF", status := .failed,
    fail_reason := some "busy" }

/-- Sample FAILED lead that has exhausted its retries. -/
def sampleFailedMaxLead : Lead :=
  { phone_number := "+818011115555", id := "LG", status := .failed,
    fail_reason := some "busy", retry_count := 3 }

/-- A guarded Lead mutator invoked outside its allowed predecessor set
returns the invalid-transition error carrying the current status and the
action name, producing no modified lead. -/
theorem leadRun_not_allowed (a : LeadAction) (now : ℕ) (l : Lead)
    (h : l.status ∉ a.allowedFrom) :
    a.run now l = .error ⟨l.status, a.actionName⟩ := by
  cases a <;>
    simp_all [LeadAction.run, LeadAction.allowedFrom, LeadAction.actionName,
      Lead.start_calling, Lead.connect, Lead.complete, Lead.fail, Lead.retry]

/-- C3: each mutator among start_calling, connect, complete, fail, retry
invoked while the lead is outside its allowed predecessor set fails with
the invalid-transition error carrying the current state and the attempted
action; since the failing call returns only that error and no lead, the
state, call history, outcome, fail reason, retry counter and timestamps of
the lead are untouched. -/
theorem lead_disallowed_mutator_fails (a : LeadAction) (now : ℕ) (l : Lead)
    (h : l.status ∉ a.allowedFrom) :
    a.run now l = .error ⟨l.status, a.actionName⟩ :=
  leadRun_not_allowed a now l h

/-- Witness for C3: retry on a CONNECTED lead is rejected with the current
state and the attempted action. -/
theorem lead_disallowed_mutator_fails_witness :
    sampleConnectedLead.status ∉ LeadAction.retry.allowedFrom ∧
    LeadAction.retry.run 5 sampleConnectedLead = .error ⟨.connected, "retry"⟩ :=
  ⟨by decide, lead_disallowed_mutator_fails .retry 5 sampleConnectedLead (by decide)⟩

/-- C5 counterexample: mark_dnc on a COMPLETED lead moves it to DNC, so a
COMPLETED lead does have an outbound transition. -/
theorem completed_mark_dnc_cex :
    sampleCompletedLead.status = .completed ∧
    (Lead.mark_dnc 9 sampleCompletedLead).status = .dnc ∧
    LeadStatus.dnc ≠ .completed := by
  decide

/-- C5 amended: a DNC lead is terminal for every operation (the five
guarded mutators fail and mark_dnc is a no-op); a COMPLETED lead rejects
the five guarded mutators, but mark_dnc moves it to the terminal DNC
state. -/
theorem terminal_lead_states (a : LeadAction) (now : ℕ) (l : Lead) :
    (l.status = .dnc →
      a.run now l = .error ⟨.dnc, a.actionName⟩ ∧ Lead.mark_dnc now l = l) ∧
    (l.status = .completed →
      a.run now l = .error ⟨.completed, a.actionName⟩ ∧
        (Lead.mark_dnc now l).status = .dnc) := by
  constructor
  · intro h
    refine ⟨?_, ?_⟩
    · rw [← h]
      exact leadRun_not_allowed a now l (by cases a <;> simp [LeadAction.allowedFrom, h])
    · simp [Lead.mark_dnc, h]
  · intro h
    refine ⟨?_, ?_⟩
    · rw [← h]
      exact leadRun_not_allowed a now l (by cases a <;> simp [LeadAction.allowedFrom, h])
    · simp [Lead.mark_dnc, h]

/-- Witness for C5 amended: on a DNC lead, start_calling fails and mark_dnc
is a no-op; on a COMPLETED lead, start_calling fails and mark_dnc reaches
DNC. -/
theorem terminal_lead_states_witness :
    (LeadAction.startCalling.run 4 (Lead.mark_dnc 3 sampleCompletedLead) =
        .error ⟨.dnc, "start_calling"⟩ ∧
      Lead.mark_dnc 4 (Lead.mark_dnc 3 sampleCompletedLead) =
        Lead.mark_dnc 3 sampleCompletedLead) ∧
    (LeadAction.startCalling.run 4 sampleCompletedLead =
        .error ⟨.completed, "start_calling"⟩ ∧
      (Lead.mark_dnc 4 sampleCompletedLead).status = .dnc) :=
  ⟨(terminal_lead_states .startCalling 4 (Lead.mark_dnc 3 sampleCompletedLead)).1 (by decide),
   (terminal_lead_states .startCalling 4 sampleCompletedLead).2 (by decide)⟩

/-- C6: retry on a FAILED lead below the retry limit resets it to PENDING
with the counter incremented by one (and the fail reason cleared); at or
above the limit it fails with the retry-limit error and the lead stays
FAILED since no updated lead is produced. -/
theorem retry_limit_behavior (now : ℕ) (l : Lead) (h : l.status = .failed) :
    (l.retry_count < l.max_retries →
      Lead.retry now l = .ok { l with status := .pending,
                                      retry_count := l.retry_count + 1,
                                      fail_reason := none, updated_at := now }) ∧
    (l.max_retries ≤ l.retry_count →
      Lead.retry now l = .error ⟨.failed, "retry (max retries reached)"⟩) := by
  constructor
  · intro hlt
    simp [Lead.retry, h, Nat.not_le.mpr hlt]
  · intro hge
    simp [Lead.retry, h, hge]

/-- Witness for C6: a FAILED lead with retry_count 0 and limit 3 is reset
to PENDING with counter 1; a FAILED lead with retry_count 3 and limit 3 is
rejected with the retry-limit error. -/
theorem retry_limit_behavior_witness :
    Lead.retry 7 sampleFailedLead =
      .ok { sampleFailedLead with status := .pending, retry_count := 1,
                                  fail_reason := none, updated_at := 7 } ∧
    Lead.retry 7 sampleFailedMaxLead =
      .error ⟨.failed, "retry (max retries reached)"⟩ :=
  ⟨(retry_limit_behavior 7 sampleFailedLead (by decide)).1 (by decide),
   (retry_limit_behavior 7 sampleFailedMaxLead (by decide)).2 (by decide)⟩

/-- C9: a freshly constructed session (dataclass defaults: OFFLINE, no
idle_since) satisfies the invariant that idle_since is non-null exactly
when the state is AVAILABLE, and every one of the eight session operations
establishes that invariant again from any state whatsoever, so the
invariant holds in every reachable session state. -/
theorem session_idle_invariant (i n : String) (a : SessionAction) (now : ℕ)
    (s : OperatorSession) :
    sessionInvariant { id := i, name := n } ∧ sessionInvariant (a.run now s) := by
  constructor
  · simp [sessionInvariant]
  · cases a <;>
      simp [SessionAction.run, sessionInvariant, OperatorSession.go_online,
        OperatorSession.go_offline, OperatorSession.start_call,
        OperatorSession.end_call, OperatorSession.go_on_break,
        OperatorSession.return_from_break, OperatorSession.start_wrap_up,
        OperatorSession.end_wrap_up]

/-- C1: with the configured clamp bounds 1.0 and 5.0, calculate_dial_ratio
returns the configured base ratio whenever connected + abandoned < 10 (in
particular at a sample of 9), and otherwise returns
clamp(base · adjustment, 1.0, 5.0) where the adjustment is
1 + 10·(target − current_abandon_rate) when the current abandon rate is
positive and 1.1 when it is zero. -/
theorem dial_ratio_control_law (base target : ℚ) (stats : CampaignStats) :
    calculate_dial_ratio
        { base_dial_ratio := base, min_dial_ratio := 1, max_dial_ratio := 5,
          target_abandon_rate := target } stats =
      if stats.connected_leads + stats.abandoned_leads < 10 then base
      else
        max 1 (min 5 (base *
          (if 0 < stats.abandon_rate then
            1 + 10 * (target - stats.abandon_rate)
          else
            11 / 10))) := by
  unfold calculate_dial_ratio
  dsimp only
  split
  · rfl
  · split
    · ring_nf
    · rfl

/-- C8 counterexample: the domain model accepts ratio 20 both at
construction and in update_dial_ratio even though 20 > 10, and the API
creation schema accepts 1/10000 even though it is below 1/1000: the
claimed bounds 1e-3 ≤ r ≤ 10 are not what the validation enforces. -/
theorem dial_ratio_bounds_cex :
    (Campaign.update_dial_ratio 2 { name := "C8", id := "c8" } 20).isOk = true ∧
    Campaign.postInitOk "C8" 20 = true ∧
    ¬ ((20 : ℚ) ≤ 10) ∧
    campaignCreateAccepts (1 / 10000) = true ∧
    ¬ ((1 : ℚ) / 1000 ≤ 1 / 10000) := by
  refine ⟨?_, ?_, ?_, ?_, ?_⟩
  · norm_num [Campaign.update_dial_ratio, Except.isOk, Except.toBool]
  · norm_num [Campaign.postInitOk]
    decide
  · norm_num
  · norm_num [campaignCreateAccepts]
  · norm_num

/-- C8 amended: the domain model (construction and update_dial_ratio)
enforces only positivity of the dial ratio, and the API creation schema
CampaignCreate enforces 0 < r ≤ 10; no 1e-3 lower bound exists anywhere. -/
theorem dial_ratio_validation (now : ℕ) (c : Campaign) (nm : String) (r : ℚ) :
    ((Campaign.update_dial_ratio now c r).isOk = true ↔ 0 < r) ∧
    (Campaign.postInitOk nm r = true ↔
      (¬ nm.toList.all Char.isWhitespace = true ∧ 0 < r)) ∧
    (campaignCreateAccepts r = true ↔ (0 < r ∧ r ≤ 10)) := by
  refine ⟨?_, ?_, ?_⟩
  · constructor
    · intro h
      by_contra hnot
      push_neg at hnot
      rw [Campaign.update_dial_ratio, if_pos hnot] at h
      exact absurd h (by simp [Except.isOk, Except.toBool])
    · intro h
      rw [Campaign.update_dial_ratio, if_neg (not_le.mpr h)]
      rfl
  · simp [Campaign.postInitOk]
  · simp [campaignCreateAccepts]

/-- Sample PAUSED campaign whose single lead is in a terminal state. -/
def c7PausedCampaign : Campaign :=
  { name := "C7", id := "c7", status := .paused, leads := [sampleCompletedLead],
    phone_numbers := {"+818011113333"} }

/-- C7 counterexample: a PAUSED campaign all of whose leads are terminal is
not transitioned to COMPLETED by check_completion, so the transition does
not happen if and only if every lead is terminal. -/
theorem check_completion_cex :
    (∀ l ∈ c7PausedCampaign.leads,
      l.status = .completed ∨ l.status = .failed ∨ l.status = .dnc) ∧
    (Campaign.check_completion 3 c7PausedCampaign).1 = false ∧
    (Campaign.check_completion 3 c7PausedCampaign).2.status ≠ .completed := by
  refine ⟨by decide, by decide, by decide⟩

/-- A lead is counted as active by the check_completion scan exactly when
it is not in one of the three terminal states. -/
lemma lead_active_iff_not_terminal (l : Lead) :
    (decide (l.status ∈ [LeadStatus.pending, LeadStatus.calling, LeadStatus.connected]) = true)
      ↔ ¬ (l.status = .completed ∨ l.status = .failed ∨ l.status = .dnc) := by
  cases h : l.status <;> simp [h]

/-- check_completion on a non-RUNNING campaign returns false and changes
nothing. -/
lemma check_completion_not_running (now : ℕ) (c : Campaign)
    (h : ¬ c.status = .running) :
    Campaign.check_completion now c = (false, c) := by
  rw [Campaign.check_completion, if_pos h]

/-- check_completion on a RUNNING campaign with some active lead returns
false and changes nothing. -/
lemma check_completion_active (now : ℕ) (c : Campaign) (h : c.status = .running)
    (hb : c.leads.any (fun l =>
      decide (l.status ∈ [LeadStatus.pending, LeadStatus.calling, LeadStatus.connected])) = true) :
    Campaign.check_completion now c = (false, c) := by
  rw [Campaign.check_completion, if_neg (by simp [h]), if_pos hb]

/-- check_completion on a RUNNING campaign with no active lead reports true
and marks the campaign COMPLETED. -/
lemma check_completion_done (now : ℕ) (c : Campaign) (h : c.status = .running)
    (hb : c.leads.any (fun l =>
      decide (l.status ∈ [LeadStatus.pending, LeadStatus.calling, LeadStatus.connected])) = false) :
    Campaign.check_completion now c =
      (true, { c with status := .completed, completed_at := some now, updated_at := now }) := by
  rw [Campaign.check_completion, if_neg (by simp [h]), if_neg (by rw [hb]; simp)]

/-- C7 amended: check_completion leaves a non-RUNNING campaign untouched;
on a RUNNING campaign it reports true and transitions the status to
COMPLETED exactly when every lead is in a terminal state
(COMPLETED, FAILED or DNC); and it is idempotent on the campaign state:
running it a second time changes nothing. -/
theorem check_completion_running_iff (now now2 : ℕ) (c : Campaign) :
    (c.status ≠ .running → Campaign.check_completion now c = (false, c)) ∧
    (c.status = .running →
      (((Campaign.check_completion now c).1 = true ↔
        ∀ l ∈ c.leads, l.status = .completed ∨ l.status = .failed ∨ l.status = .dnc) ∧
       ((Campaign.check_completion now c).2.status = .completed ↔
        ∀ l ∈ c.leads, l.status = .completed ∨ l.status = .failed ∨ l.status = .dnc))) ∧
    (Campaign.check_completion now2 (Campaign.check_completion now c).2).2 =
      (Campaign.check_completion now c).2 := by
  refine ⟨check_completion_not_running now c, ?_, ?_⟩
  · intro h
    cases hb : c.leads.any (fun l =>
        decide (l.status ∈ [LeadStatus.pending, LeadStatus.calling, LeadStatus.connected])) with
    | true =>
      have hnall : ¬ ∀ l ∈ c.leads,
          l.status = .completed ∨ l.status = .failed ∨ l.status = .dnc := by
        rw [List.any_eq_true] at hb
        obtain ⟨l, hl, hpl⟩ := hb
        intro hall
        exact (lead_active_iff_not_terminal l).mp hpl (hall l hl)
      have heq := check_completion_active now c h hb
      refine ⟨?_, ?_⟩
      · rw [heq]
        exact iff_of_false (by simp) hnall
      · rw [heq]
        exact iff_of_false (by simp [h]) hnall
    | false =>
      have hall : ∀ l ∈ c.leads,
          l.status = .completed ∨ l.status = .failed ∨ l.status = .dnc := by
        rw [List.any_eq_false] at hb
        intro l hl
        by_contra hnt
        exact absurd ((lead_active_iff_not_terminal l).mpr hnt) (by simpa using hb l hl)
      have heq := check_completion_done now c h hb
      refine ⟨?_, ?_⟩
      · rw [heq]
        exact iff_of_true rfl hall
      · rw [heq]
        exact iff_of_true rfl hall
  · by_cases h : c.status = .running
    · cases hb : c.leads.any (fun l =>
          decide (l.status ∈ [LeadStatus.pending, LeadStatus.calling, LeadStatus.connected])) with
      | true =>
        have h2 : (Campaign.check_completion now c).2 = c := by
          rw [check_completion_active now c h hb]
        rw [h2, check_completion_active now2 c h hb]
      | false =>
        have hds : (Campaign.check_completion now c).2.status = .completed := by
          rw [check_completion_done now c h hb]
        have hnr : ¬ (Campaign.check_completion now c).2.status = .running := by
          rw [hds]
          decide
        rw [check_completion_not_running now2 _ hnr]
    · have h2 : (Campaign.check_completion now c).2 = c := by
        rw [check_completion_not_running now c h]
      rw [h2, check_completion_not_running now2 c h]

/-- Witness for C7 amended: on the PAUSED sample campaign check_completion
returns (false, unchanged), and a second run after the first changes
nothing. -/
theorem check_completion_running_iff_witness :
    Campaign.check_completion 3 c7PausedCampaign = (false, c7PausedCampaign) ∧
    (Campaign.check_completion 4
        (Campaign.check_completion 3 c7PausedCampaign).2).2 =
      (Campaign.check_completion 3 c7PausedCampaign).2 :=
  ⟨(check_completion_running_iff 3 4 c7PausedCampaign).1 (by decide),
   (check_completion_running_iff 3 4 c7PausedCampaign).2.2⟩

/-- Unfolding of calculate_calls_to_make with its locals inlined. -/
lemma calculate_calls_to_make_eq (a : ℤ) (r : ℚ) (p : ℤ) :
    calculate_calls_to_make a r p =
      if a ≤ 0 then 0 else max 0 (ratTrunc ((a : ℚ) * r) - p) := rfl

/-- Unfolding of get_leads_to_dial with its locals inlined. -/
lemma get_leads_to_dial_eq (cfg : DialerConfig) (c : Campaign) (a p : ℤ) :
    get_leads_to_dial cfg c a p =
      if c.status ≠ .running then []
      else if calculate_calls_to_make a
          (min (calculate_dial_ratio cfg c.get_stats) c.dial_ratio) p ≤ 0 then []
      else c.get_callable_leads (calculate_calls_to_make a
          (min (calculate_dial_ratio cfg c.get_stats) c.dial_ratio) p) := rfl

/-- For natural operator and pending counts, calculate_calls_to_make equals
the claimed formula max(0, floor(operators · ratio) − pending): truncation
toward zero and flooring agree on a non-negative product, and on a negative
product both branches are cut to 0. -/
lemma calculate_calls_eq (a p : ℕ) (r : ℚ) :
    calculate_calls_to_make (a : ℤ) r (p : ℤ) =
      max 0 (⌊(a : ℚ) * r⌋ - (p : ℤ)) := by
  rcases Nat.eq_zero_or_pos a with h0 | hpos
  · subst h0
    rw [calculate_calls_to_make_eq, if_pos (by simp)]
    simp
  · have hne : ¬ ((a : ℤ) ≤ 0) := by
      omega
    rw [calculate_calls_to_make_eq, if_neg hne]
    rw [show (((a : ℤ) : ℚ)) = ((a : ℕ) : ℚ) by push_cast; ring]
    by_cases hq : (a : ℚ) * r < 0
    · rw [ratTrunc, if_pos hq]
      have h1 : ⌊(a : ℚ) * r⌋ ≤ 0 := Int.floor_nonpos hq.le
      have h2 : 0 ≤ ⌊-((a : ℚ) * r)⌋ := Int.floor_nonneg.mpr (by linarith)
      omega
    · rw [ratTrunc, if_neg hq]

/-- Length of the get_callable_leads collection loop: with k leads already
collected and at least one more requested, it returns
min(count − k, number of PENDING leads) further leads. -/
lemma callableAux_length (ls : List Lead) : ∀ (count k : ℤ), k + 1 ≤ count →
    ((callableAux count k ls).length : ℤ) =
      min (count - k) ((ls.countP (fun l => decide (l.status = .pending)) : ℤ)) := by
  induction ls with
  | nil =>
    intro count k h
    simp [callableAux]
    omega
  | cons l ls ih =>
    intro count k h
    by_cases hp : l.status = .pending
    · by_cases hc : count ≤ k + 1
      · rw [callableAux, if_pos hp, if_pos hc]
        have hck : count = k + 1 := le_antisymm hc h
        subst hck
        simp [List.countP_cons, hp]
      · rw [callableAux, if_pos hp, if_neg hc]
        have hrec := ih count (k + 1) (by omega)
        simp [List.countP_cons, hp]
        omega
    · rw [callableAux, if_neg hp]
      rw [ih count k h]
      simp [List.countP_cons, hp]

/-- C2: for every tick, the number of leads selected by get_leads_to_dial
on a RUNNING campaign is max(0, floor(available_operators ·
effective_ratio) − pending_calls) further capped by the number of PENDING
leads, where effective_ratio = min(calculated ratio, campaign.dial_ratio);
the selection is empty when the campaign is not RUNNING or no operator is
available, and a list length is never negative. -/
theorem leads_to_dial_count (cfg : DialerConfig) (c : Campaign) (a p : ℕ) :
    (c.status = .running →
      ((get_leads_to_dial cfg c (a : ℤ) (p : ℤ)).length : ℤ) =
        min (max 0 (⌊(a : ℚ) * min (calculate_dial_ratio cfg c.get_stats) c.dial_ratio⌋ - (p : ℤ)))
            ((c.leads.countP (fun l => decide (l.status = .pending)) : ℤ))) ∧
    (c.status ≠ .running → get_leads_to_dial cfg c (a : ℤ) (p : ℤ) = []) ∧
    (a = 0 → get_leads_to_dial cfg c (a : ℤ) (p : ℤ) = []) := by
  have hn := calculate_calls_eq a p (min (calculate_dial_ratio cfg c.get_stats) c.dial_ratio)
  refine ⟨?_, ?_, ?_⟩
  · intro h
    rw [get_leads_to_dial_eq, if_neg (by simp [h])]
    by_cases hle : calculate_calls_to_make (a : ℤ)
        (min (calculate_dial_ratio cfg c.get_stats) c.dial_ratio) (p : ℤ) ≤ 0
    · rw [if_pos hle]
      rw [hn] at hle
      have hcc : (0 : ℤ) ≤ (c.leads.countP (fun l => decide (l.status = .pending)) : ℤ) :=
        Int.ofNat_nonneg _
      simp only [List.length_nil, Nat.cast_zero]
      omega
    · rw [if_neg hle]
      push_neg at hle
      rw [Campaign.get_callable_leads, if_neg (by simp [h])]
      rw [callableAux_length c.leads _ 0 (by omega)]
      rw [hn]
      omega
  · intro h
    rw [get_leads_to_dial_eq, if_pos (by simp [h])]
  · intro h
    subst h
    rw [get_leads_to_dial_eq]
    by_cases hr : c.status = .running
    · rw [if_neg (by simp [hr]), if_pos (by rw [calculate_calls_to_make_eq]; simp)]
    · rw [if_pos (by simp [hr])]

/-- Sample PENDING lead for the dialer witness. -/
def c2Lead1 : Lead := { phone_number := "+818011110001", id := "P1" }

/-- Second sample PENDING lead for the dialer witness. -/
def c2Lead2 : Lead := { phone_number := "+818011110002", id := "P2" }

/-- Third sample PENDING lead for the dialer witness. -/
def c2Lead3 : Lead := { phone_number := "+818011110003", id := "P3" }

/-- Sample RUNNING campaign with three PENDING leads. -/
def c2Campaign : Campaign :=
  { name := "C2", id := "c2", status := .running,
    leads := [c2Lead1, c2Lead2, c2Lead3],
    phone_numbers := {"+818011110001", "+818011110002", "+818011110003"} }

/-- Witness for C2: with 2 available operators, 1 pending call and the
default configuration on the sample running campaign, the launch count
formula is realized. -/
theorem leads_to_dial_count_witness :
    c2Campaign.status = .running ∧
    ((get_leads_to_dial {} c2Campaign ((2 : ℕ) : ℤ) ((1 : ℕ) : ℤ)).length : ℤ) =
      min (max 0 (⌊((2 : ℕ) : ℚ) *
            min (calculate_dial_ratio {} c2Campaign.get_stats) c2Campaign.dial_ratio⌋ -
          ((1 : ℕ) : ℤ)))
          ((c2Campaign.leads.countP (fun l => decide (l.status = .pending)) : ℤ)) :=
  ⟨rfl, (leads_to_dial_count {} c2Campaign 2 1).1 rfl⟩

/-- Changing the seed of the first-max scan: scanning with the better of x
and y as seed is the same as comparing x against the scan seeded with y. -/
lemma firstMaxAux_seed (key : OperatorSession → ℚ) :
    ∀ (ys : List OperatorSession) (x y : OperatorSession),
      firstMaxAux key (if key y > key x then y else x) ys =
        if key x ≥ key (firstMaxAux key y ys) then x else firstMaxAux key y ys := by
  intro ys
  induction ys with
  | nil =>
    intro x y
    simp only [firstMaxAux]
    split_ifs <;> first | rfl | linarith
  | cons z zs ih =>
    intro x y
    simp only [firstMaxAux]
    rw [← ih]
    congr 1
    split_ifs <;> first | rfl | linarith

/-- The head of the stable descending sort of a nonempty list is the first
element of the original list attaining the maximal key. -/
lemma pySortDesc_head (key : OperatorSession → ℚ) :
    ∀ (xs : List OperatorSession) (x : OperatorSession),
      (pySortDesc key (x :: xs)).head? = some (firstMaxAux key x xs) := by
  intro xs
  induction xs with
  | nil =>
    intro x
    simp [pySortDesc, insertDesc, firstMaxAux]
  | cons y ys ih =>
    intro x
    obtain ⟨m, t, hmt, hm⟩ : ∃ m t, pySortDesc key (y :: ys) = m :: t ∧
        m = firstMaxAux key y ys := by
      have hh := ih y
      cases h2 : pySortDesc key (y :: ys) with
      | nil => rw [h2] at hh; simp at hh
      | cons a b =>
        rw [h2] at hh
        simp only [List.head?_cons, Option.some.injEq] at hh
        exact ⟨a, b, rfl, hh⟩
    show (insertDesc key x (pySortDesc key (y :: ys))).head? = _
    rw [hmt]
    simp only [insertDesc]
    by_cases hcmp : key m > key x
    · rw [if_pos hcmp]
      simp only [List.head?_cons, Option.some.injEq]
      simp only [firstMaxAux]
      rw [firstMaxAux_seed, if_neg (by rw [← hm]; linarith), hm]
    · rw [if_neg hcmp]
      simp only [List.head?_cons, Option.some.injEq]
      simp only [firstMaxAux]
      rw [firstMaxAux_seed, if_pos (by rw [← hm]; linarith)]

/-- The first-max scan returns its seed or a member of the scanned list. -/
lemma firstMaxAux_mem (key : OperatorSession → ℚ) :
    ∀ (l : List OperatorSession) (b : OperatorSession),
      firstMaxAux key b l = b ∨ firstMaxAux key b l ∈ l := by
  intro l
  induction l with
  | nil =>
    intro b
    exact Or.inl rfl
  | cons y ys ih =>
    intro b
    simp only [firstMaxAux]
    rcases ih (if key y > key b then y else b) with h | h
    · rw [h]
      split_ifs
      · exact Or.inr (List.mem_cons_self _ _)
      · exact Or.inl rfl
    · exact Or.inr (List.mem_cons_of_mem _ h)

/-- Sample AVAILABLE operator with id a, idle since instant 4. -/
def c4OpA : OperatorSession :=
  { id := "a", name := "A", status := .available, idle_since := some 4 }

/-- Sample AVAILABLE operator with id b, idle since instant 4. -/
def c4OpB : OperatorSession :=
  { id := "b", name := "B", status := .available, idle_since := some 4 }

/-- Idle durations of the two sample operators at instant 10. -/
lemma c4_keys :
    OperatorSession.idle_duration_seconds 10 c4OpA = 6 ∧
    OperatorSession.idle_duration_seconds 10 c4OpB = 6 := by
  constructor <;> norm_num [OperatorSession.idle_duration_seconds, c4OpA, c4OpB]

/-- With the registry ordered b then a, the selector picks b. -/
lemma c4_select_BA : select_operator 10 [c4OpB, c4OpA] = some c4OpB := by
  have hsort : pySortDesc (OperatorSession.idle_duration_seconds 10) [c4OpB, c4OpA] =
      [c4OpB, c4OpA] := by
    simp only [pySortDesc, insertDesc]
    rw [if_neg (by rw [c4_keys.1, c4_keys.2]; exact lt_irrefl 6)]
  show (match pySortDesc (OperatorSession.idle_duration_seconds 10)
      ([c4OpB, c4OpA].filter (fun o => decide (o.status = .available))) with
    | [] => none
    | x :: _ => some x) = some c4OpB
  rw [show [c4OpB, c4OpA].filter (fun o => decide (o.status = .available)) =
      [c4OpB, c4OpA] from rfl]
  rw [hsort]

/-- With the registry ordered a then b, the selector picks a. -/
lemma c4_select_AB : select_operator 10 [c4OpA, c4OpB] = some c4OpA := by
  have hsort : pySortDesc (OperatorSession.idle_duration_seconds 10) [c4OpA, c4OpB] =
      [c4OpA, c4OpB] := by
    simp only [pySortDesc, insertDesc]
    rw [if_neg (by rw [c4_keys.1, c4_keys.2]; exact lt_irrefl 6)]
  show (match pySortDesc (OperatorSession.idle_duration_seconds 10)
      ([c4OpA, c4OpB].filter (fun o => decide (o.status = .available))) with
    | [] => none
    | x :: _ => some x) = some c4OpA
  rw [show [c4OpA, c4OpB].filter (fun o => decide (o.status = .available)) =
      [c4OpA, c4OpB] from rfl]
  rw [hsort]

/-- C4 counterexample: two AVAILABLE operators with distinct ids and equal
idle durations are selected purely by registry order: whichever was added
first wins, so no deterministic tie-break by operator id exists. -/
theorem select_operator_tie_cex :
    select_operator 10 [c4OpB, c4OpA] = some c4OpB ∧
    select_operator 10 [c4OpA, c4OpB] = some c4OpA ∧
    c4OpA.id ≠ c4OpB.id ∧
    OperatorSession.idle_duration_seconds 10 c4OpA =
      OperatorSession.idle_duration_seconds 10 c4OpB := by
  refine ⟨c4_select_BA, c4_select_AB, by decide, by rw [c4_keys.1, c4_keys.2]⟩

/-- C4 amended: select_operator returns, among the AVAILABLE operators in
registry (insertion) order, the first one attaining the maximal idle
duration — ties are broken by registry order, not by operator id — it
returns none when no operator is AVAILABLE, and it never returns an
operator whose state is not AVAILABLE. -/
theorem select_operator_policy (now : ℕ) (ops : List OperatorSession) :
    select_operator now ops = select_operator_spec now ops ∧
    ∀ s, select_operator now ops = some s → s.status = .available ∧ s ∈ ops := by
  constructor
  · show (match pySortDesc (OperatorSession.idle_duration_seconds now)
        (ops.filter (fun o => decide (o.status = .available))) with
      | [] => none
      | x :: _ => some x) = select_operator_spec now ops
    rw [select_operator_spec]
    cases hf : ops.filter (fun o => decide (o.status = .available)) with
    | nil => simp [pySortDesc]
    | cons x xs =>
      have hh := pySortDesc_head (OperatorSession.idle_duration_seconds now) xs x
      cases hs : pySortDesc (OperatorSession.idle_duration_seconds now) (x :: xs) with
      | nil => rw [hs] at hh; simp at hh
      | cons a b =>
        rw [hs] at hh
        simp only [List.head?_cons, Option.some.injEq] at hh
        simp [hh]
  · intro s hsel
    rw [select_operator] at hsel
    revert hsel
    cases hf : ops.filter (fun o => decide (o.status = .available)) with
    | nil =>
      intro hsel
      simp [pySortDesc] at hsel
    | cons x xs =>
      intro hsel
      have hh := pySortDesc_head (OperatorSession.idle_duration_seconds now) xs x
      have hsx : s = firstMaxAux (OperatorSession.idle_duration_seconds now) x xs := by
        cases hs : pySortDesc (OperatorSession.idle_duration_seconds now) (x :: xs) with
        | nil => rw [hs] at hh; simp at hh
        | cons a b =>
          rw [hs] at hh
          simp only [List.head?_cons, Option.some.injEq] at hh
          rw [hs] at hsel
          simp only [Option.some.injEq] at hsel
          rw [← hsel, ← hh]
      have hmem : s ∈ x :: xs := by
        rcases firstMaxAux_mem (OperatorSession.idle_duration_seconds now) xs x with h | h
        · rw [hsx, h]; exact List.mem_cons_self _ _
        · rw [hsx]; exact List.mem_cons_of_mem _ h
      rw [← hf] at hmem
      have := List.mem_filter.mp hmem
      exact ⟨by simpa using this.2, this.1⟩

/-- Witness for C4 amended: on the two-operator registry, the selector
agrees with the first-max specification and the selected operator is
AVAILABLE and belongs to the registry. -/
theorem select_operator_policy_witness :
    select_operator 10 [c4OpB, c4OpA] = select_operator_spec 10 [c4OpB, c4OpA] ∧
    (c4OpB.status = .available ∧ c4OpB ∈ [c4OpB, c4OpA]) :=
  ⟨(select_operator_policy 10 [c4OpB, c4OpA]).1,
   (select_operator_policy 10 [c4OpB, c4OpA]).2 c4OpB c4_select_BA⟩

/-- The list of phone numbers of the current leads of a campaign. -/
def campaignPhones (c : Campaign) : List String :=
  c.leads.map (fun l => l.phone_number)

/-- The duplicate-check invariant: the lead phone numbers are pairwise
distinct and the internal phone set equals the set of phone numbers of the
current leads. -/
def campaignInv (c : Campaign) : Prop :=
  (campaignPhones c).Nodup ∧ c.phone_numbers = (campaignPhones c).toFinset

instance (c : Campaign) : Decidable (campaignInv c) := by
  unfold campaignInv
  infer_instance

/-- Campaign states reachable from a freshly constructed campaign (empty
leads, empty phone set) through add_lead, remove_lead and any operation
that changes neither the lead phone list nor the phone set (the lifecycle
mutators, check_completion, update_dial_ratio, and status changes of
individual leads). -/
inductive CampaignReach : Campaign → Prop where
  | init (c : Campaign) : c.leads = [] → c.phone_numbers = ∅ → CampaignReach c
  | addLead (c c2 : Campaign) (now : ℕ) (l : Lead) :
      CampaignReach c → Campaign.add_lead now c l = .ok c2 → CampaignReach c2
  | removeLead (c c2 : Campaign) (now : ℕ) (lid : String) (r : Option Lead) :
      CampaignReach c → Campaign.remove_lead now c lid = .ok (r, c2) → CampaignReach c2
  | phonePreserving (c c2 : Campaign) :
      CampaignReach c → campaignPhones c2 = campaignPhones c →
      c2.phone_numbers = c.phone_numbers → CampaignReach c2

/-- A successful removal decomposes the lead list at the removed lead. -/
lemma removeLeadAux_some (st : CampaignStatus) (lid : String) :
    ∀ (ls ls2 : List Lead) (l : Lead),
      removeLeadAux st lid ls = .ok (some l, ls2) →
      ∃ pre post, ls = pre ++ l :: post ∧ ls2 = pre ++ post := by
  intro ls
  induction ls with
  | nil =>
    intro ls2 l h
    simp [removeLeadAux] at h
  | cons a as ih =>
    intro ls2 l h
    rw [removeLeadAux] at h
    by_cases hid : a.id = lid
    · rw [if_pos hid] at h
      by_cases hst : a.status ≠ .pending
      · rw [if_pos hst] at h
        simp at h
      · rw [if_neg hst] at h
        simp only [Except.ok.injEq, Prod.mk.injEq, Option.some.injEq] at h
        obtain ⟨hl, hls⟩ := h
        exact ⟨[], as, by simp [hl], by simp [hls]⟩
    · rw [if_neg hid] at h
      cases hrec : removeLeadAux st lid as with
      | error e =>
        rw [hrec] at h
        simp at h
      | ok p =>
        obtain ⟨r, ls3⟩ := p
        rw [hrec] at h
        simp only [Except.ok.injEq, Prod.mk.injEq] at h
        obtain ⟨hr, hls⟩ := h
        obtain ⟨pre, post, h1, h2⟩ := ih ls3 l (by rw [hrec, hr])
        exact ⟨a :: pre, post, by simp [h1], by simp [← hls, h2]⟩

/-- add_lead preserves the duplicate-check invariant. -/
lemma campaignInv_add (now : ℕ) (c : Campaign) (l : Lead) (c2 : Campaign)
    (hinv : campaignInv c) (h : Campaign.add_lead now c l = .ok c2) :
    campaignInv c2 := by
  rw [Campaign.add_lead] at h
  by_cases h1 : c.status ∈ [CampaignStatus.stopped, CampaignStatus.completed]
  · rw [if_pos h1] at h
    simp at h
  · rw [if_neg h1] at h
    by_cases h2 : l.phone_number ∈ c.phone_numbers
    · rw [if_pos h2] at h
      simp at h
    · rw [if_neg h2] at h
      simp only [Except.ok.injEq] at h
      obtain ⟨hnd, hset⟩ := hinv
      have hpn : l.phone_number ∉ campaignPhones c := by
        intro hmem
        exact h2 (by rw [hset]; exact List.mem_toFinset.mpr hmem)
      subst h
      have hph2 : campaignPhones { c with
          leads := c.leads ++ [{ l with campaign_id := some c.id }],
          phone_numbers := insert l.phone_number c.phone_numbers,
          updated_at := now } = campaignPhones c ++ [l.phone_number] := by
        simp [campaignPhones]
      constructor
      · rw [hph2, List.nodup_append]
        refine ⟨hnd, by simp, ?_⟩
        intro x hx
        simp only [List.mem_singleton, List.mem_cons, List.not_mem_nil, or_false]
        intro hxl
        exact hpn (by rw [← hxl]; exact hx)
      · show insert l.phone_number c.phone_numbers = _
        rw [hph2, hset, List.toFinset_append]
        ext x
        simp
        tauto

/-- remove_lead preserves the duplicate-check invariant. -/
lemma campaignInv_remove (now : ℕ) (c : Campaign) (lid : String)
    (r : Option Lead) (c2 : Campaign) (hinv : campaignInv c)
    (h : Campaign.remove_lead now c lid = .ok (r, c2)) : campaignInv c2 := by
  rw [Campaign.remove_lead] at h
  cases hrec : removeLeadAux c.status lid c.leads with
  | error e =>
    rw [hrec] at h
    simp at h
  | ok p =>
    obtain ⟨ro, ls2⟩ := p
    rw [hrec] at h
    cases ro with
    | none =>
      simp only [Except.ok.injEq, Prod.mk.injEq] at h
      rw [← h.2]
      exact hinv
    | some l =>
      simp only [Except.ok.injEq, Prod.mk.injEq] at h
      obtain ⟨hr, hc2⟩ := h
      obtain ⟨pre, post, h1, h2⟩ := removeLeadAux_some c.status lid c.leads ls2 l hrec
      obtain ⟨hnd, hset⟩ := hinv
      have hphones : campaignPhones c =
          pre.map (fun x => x.phone_number) ++ l.phone_number ::
            post.map (fun x => x.phone_number) := by
        rw [campaignPhones, h1]
        simp
      rw [hphones] at hnd hset
      have hndpair := List.nodup_append.mp hnd
      have hpA : l.phone_number ∉ pre.map (fun x => x.phone_number) := by
        intro hin
        exact hndpair.2.2 hin (List.mem_cons_self _ _)
      have hpB : l.phone_number ∉ post.map (fun x => x.phone_number) :=
        (List.nodup_cons.mp hndpair.2.1).1
      have hsub : List.Sublist
          (pre.map (fun x => x.phone_number) ++ post.map (fun x => x.phone_number))
          (pre.map (fun x => x.phone_number) ++ l.phone_number ::
            post.map (fun x => x.phone_number)) :=
        (List.sublist_cons_self _ _).append_left _
      have hph2 : campaignPhones c2 =
          pre.map (fun x => x.phone_number) ++ post.map (fun x => x.phone_number) := by
        rw [← hc2, campaignPhones]
        dsimp only
        rw [h2, List.map_append]
      have hpn2 : c2.phone_numbers = c.phone_numbers.erase l.phone_number := by
        rw [← hc2]
      constructor
      · rw [hph2]
        exact hnd.sublist hsub
      · rw [hpn2, hph2, hset]
        ext x
        simp only [Finset.mem_erase, List.mem_toFinset, List.mem_append, List.mem_cons]
        constructor
        · rintro ⟨hne, hA | (hp | hB)⟩
          · exact Or.inl hA
          · exact absurd hp hne
          · exact Or.inr hB
        · rintro (hA | hB)
          · exact ⟨fun he => hpA (he ▸ hA), Or.inl hA⟩
          · exact ⟨fun he => hpB (he ▸ hB), Or.inr (Or.inr hB)⟩

/-- Every reachable campaign satisfies the duplicate-check invariant. -/
lemma campaignReach_inv (c : Campaign) (h : CampaignReach c) : campaignInv c := by
  induction h with
  | init c h1 h2 =>
    constructor
    · rw [campaignPhones, h1]
      simp
    · rw [campaignPhones, h1, h2]
      simp
  | addLead c c2 now l hr hok ih => exact campaignInv_add now c l c2 ih hok
  | removeLead c c2 now lid r hr hok ih => exact campaignInv_remove now c lid r c2 ih hok
  | phonePreserving c c2 hr hph hpn ih =>
    exact ⟨hph ▸ ih.1, by rw [hpn, hph]; exact ih.2⟩

/-- C10 amended: in every reachable campaign state the internal
duplicate-check phone set equals the set of phone numbers of the current
leads (and those phones are pairwise distinct), and — except in STOPPED or
COMPLETED campaigns, where add_lead fails with an invalid-state error
before the duplicate check — add_lead fails with the duplicate-phone error
exactly when some current lead of the campaign has the same phone number. -/
theorem phone_set_invariant (c : Campaign) (h : CampaignReach c) :
    campaignInv c ∧
    ∀ (now : ℕ) (l : Lead), c.status ≠ .stopped → c.status ≠ .completed →
      (Campaign.add_lead now c l = .error (.duplicatePhone l.phone_number) ↔
        ∃ l2 ∈ c.leads, l2.phone_number = l.phone_number) := by
  have hinv := campaignReach_inv c h
  refine ⟨hinv, ?_⟩
  intro now l h1 h2
  have hst : ¬ c.status ∈ [CampaignStatus.stopped, CampaignStatus.completed] := by
    simp [h1, h2]
  constructor
  · intro hadd
    rw [Campaign.add_lead, if_neg hst] at hadd
    by_cases hp : l.phone_number ∈ c.phone_numbers
    · rw [hinv.2] at hp
      obtain ⟨l2, hl2, hph⟩ := List.mem_map.mp (List.mem_toFinset.mp hp)
      exact ⟨l2, hl2, hph⟩
    · rw [if_neg hp] at hadd
      simp at hadd
  · rintro ⟨l2, hl2, hph⟩
    rw [Campaign.add_lead, if_neg hst]
    have hp : l.phone_number ∈ c.phone_numbers := by
      rw [hinv.2]
      exact List.mem_toFinset.mpr (List.mem_map.mpr ⟨l2, hl2, hph⟩)
    rw [if_pos hp]

/-- Sample STOPPED campaign holding one lead, satisfying the phone-set
equality. -/
def c10Stopped : Campaign :=
  { name := "C10s", id := "cX", status := .stopped,
    leads := [{ phone_number := "+818011112222", id := "L1" }],
    phone_numbers := {"+818011112222"} }

/-- Sample lead whose phone duplicates the one in the stopped campaign. -/
def c10DupLead : Lead := { phone_number := "+818011112222", id := "L2" }

/-- C10 counterexample: in a STOPPED campaign whose phone set equals its
lead phones, add_lead of a duplicate phone fails with the invalid-state
error, not the duplicate-phone error, although a current lead carries the
same phone number. -/
theorem add_lead_duplicate_cex :
    campaignInv c10Stopped ∧
    (∃ l2 ∈ c10Stopped.leads, l2.phone_number = c10DupLead.phone_number) ∧
    Campaign.add_lead 5 c10Stopped c10DupLead =
      .error (.invalidState ⟨.stopped, "add lead", ""⟩) ∧
    Campaign.add_lead 5 c10Stopped c10DupLead ≠
      .error (.duplicatePhone c10DupLead.phone_number) := by
  refine ⟨by decide, ⟨{ phone_number := "+818011112222", id := "L1" }, by decide, by decide⟩,
    rfl, ?_⟩
  rw [show Campaign.add_lead 5 c10Stopped c10DupLead =
      .error (.invalidState ⟨.stopped, "add lead", ""⟩) from rfl]
  intro hcontra
  exact absurd (Except.error.inj hcontra) (by decide)

/-- Fresh campaign used as the reachability witness root. -/
def c10Init : Campaign := { name := "C10", id := "c" }

/-- Lead duplicating the phone of the lead already in the witness
campaign. -/
def c10DupLead2 : Lead := { phone_number := "+818011116666", id := "W2" }

/-- First lead added to the witness campaign. -/
def c10Lead1 : Lead := { phone_number := "+818011116666", id := "W1" }

/-- The witness campaign after one successful add_lead. -/
def c10One : Campaign :=
  { name := "C10", id := "c",
    leads := [{ phone_number := "+818011116666", id := "W1", campaign_id := some "c" }],
    phone_numbers := insert "+818011116666" ∅,
    updated_at := 1 }

/-- Witness for C10 amended: the campaign reached by one add_lead from a
fresh campaign satisfies the invariant, and adding a second lead with the
same phone fails with the duplicate-phone error exactly because a current
lead carries that phone. -/
theorem phone_set_invariant_witness :
    campaignInv c10One ∧
    (Campaign.add_lead 2 c10One c10DupLead2 =
        .error (.duplicatePhone c10DupLead2.phone_number) ↔
      ∃ l2 ∈ c10One.leads, l2.phone_number = c10DupLead2.phone_number) :=
  have hreach : CampaignReach c10One :=
    CampaignReach.addLead c10Init c10One 1 c10Lead1
      (CampaignReach.init c10Init rfl rfl) rfl
  have h := phone_set_invariant c10One hreach
  ⟨h.1, h.2 2 c10DupLead2 (by decide) (by decide)⟩
